import Mathlib

/-!
Verification development for the Babelfish chess-analysis core.

The Python source is shallowly embedded as follows.

* The external engine binding (the `stockfish` Python package) and the rules
  library (`python-chess`) are external collaborators; they are modelled as
  structures of oracle functions (`Engine`, `Rules`).  Fallible library calls
  (calls that may raise a Python exception) return `Except PyError`.
* The repository's own functions (`ChessAnalyzer.analyze_position`,
  `ChessAnalyzer.uci_to_san`, `ChessAnalyzer.get_principal_variation`,
  `ChessAnalyzer.analyze_game`, `MCPToolRouter._analyze_position`,
  `MCPToolRouter._evaluate_move_quality`, `MCPToolRouter._apply_moves`)
  are translated function by function; Python dictionaries that the code
  builds with a fixed key set become structures, and the stateful
  "set position / set depth, then query" use of the engine handle is
  rendered by passing the FEN and depth explicitly to each oracle call.
* Formatted text replies of the MCP tool layer are rendered as structured
  outcome values carrying exactly the data the corresponding text encodes.
-/

/-- A Python exception value, as far as the embedded control flow needs it. -/
inductive PyError where
  | typeError (msg : String)
  | valueError (msg : String)
  | engineError (msg : String)
  | nameError (msg : String)
deriving DecidableEq, Repr

/-- The evaluation dictionary produced by the engine binding:
`\x7b"type": "cp", "value": v\x7d` or `\x7b"type": "mate", "value": v\x7d`. -/
inductive Evaluation where
  | cp (value : Int)
  | mate (value : Int)
deriving DecidableEq, Repr

/-- Modelled from the spec: the Evaluation Normalizer (spec section 4.1).
The normalization is implemented inside the external `stockfish` engine
binding's `get_evaluation` (it is not part of the repository's own sources):
the raw engine score is relative to the side to move in the queried position,
and the binding converts it to the fixed White-positive convention.  Per the
spec: for centipawn scores, if the color to move is Black, negate the value;
for mate scores, combine the raw sign (positive = side to move is mating)
with the queried side's color by the same negation rule. -/
def normalizeEvaluation (raw : Evaluation) (whiteToMove : Bool) : Evaluation :=
  if whiteToMove then raw
  else
    match raw with
    | .cp v => .cp (-v)
    | .mate v => .mate (-v)

/-- One entry of `stockfish.get_top_moves`, and of the SAN-converted
`top_moves` list built by `analyze_position` (chess_analyzer.py:136-146).
`Move` is the move notation (`none` models an absent/None value),
`Centipawn`/`Mate` are the engine's scores for the move, and `UCI` is the
extra key the analyzer adds when it converts `Move` to SAN. -/
structure TopMoveEntry where
  Move : Option String
  Centipawn : Option Int
  Mate : Option Int
  UCI : Option String := none
deriving DecidableEq, Repr

/-- The dictionary returned by `ChessAnalyzer.analyze_position`
(chess_analyzer.py:148-159). -/
structure AnalysisDict where
  fen : String
  evaluation : Evaluation
  best_move : Option String
  best_move_uci : Option String
  top_moves : List TopMoveEntry
  is_check : Bool
deriving DecidableEq, Repr

/-- The oracle interface of the `stockfish` engine binding.  Each function
takes the FEN (and depth) explicitly, standing for the handle state set by
`set_fen_position` / `set_depth` before the query.  `rawEval` is the raw
engine score of the position, relative to the side to move; `whiteToMove`
is the binding's check of the FEN's side-to-move field. -/
structure Engine where
  isFenValid : String → Bool
  rawEval : String → Nat → Except PyError Evaluation
  whiteToMove : String → Bool
  getBestMove : String → Nat → Except PyError (Option String)
  getTopMoves : String → Nat → Nat → Except PyError (List TopMoveEntry)
  willBeCapture : String → String → Except PyError Bool

/-- The binding's `get_evaluation`: raw engine output passed through the
normalization to the White-positive convention (see `normalizeEvaluation`). -/
def Engine.get_evaluation (E : Engine) (fen : String) (depth : Nat) :
    Except PyError Evaluation :=
  match E.rawEval fen depth with
  | .error e => .error e
  | .ok raw => .ok (normalizeEvaluation raw (E.whiteToMove fen))

/-- The oracle interface of the rules library (`python-chess`), over an
abstract board type `B` and move type `M`.  Calls that the Python code
guards with `try`/`except` return `Except PyError`. -/
structure Rules (B M : Type) where
  boardOfFen : String → Except PyError B
  parseSan : B → String → Except PyError M
  fromUci : String → Except PyError M
  isLegalMove : B → M → Bool
  sanOf : B → M → String
  uciOf : M → String
  push : B → M → B
  fenOf : B → String
  turnWhite : B → Bool
  isCheckmate : B → Bool
  isStalemate : B → Bool
  isInsufficientMaterial : B → Bool

/-- `ChessAnalyzer.uci_to_san` (chess_analyzer.py:51-69): build the board,
parse the UCI move, and convert to SAN only if the move is legal; on any
failure, or if the move is not legal, return the UCI string unchanged. -/
def uci_to_san {B M : Type} (R : Rules B M) (fen uciMove : String) : String :=
  match R.boardOfFen fen, R.fromUci uciMove with
  | .ok board, .ok move =>
    if R.isLegalMove board move then R.sanOf board move else uciMove
  | _, _ => uciMove

/-- `ChessAnalyzer.san_to_uci` (chess_analyzer.py:71-86): parse the SAN move
and return its UCI form; on any failure return the original string. -/
def san_to_uci {B M : Type} (R : Rules B M) (fen sanMove : String) : String :=
  match R.boardOfFen fen with
  | .error _ => sanMove
  | .ok board =>
    match R.parseSan board sanMove with
    | .error _ => sanMove
    | .ok move => R.uciOf move

/-- The SAN conversion of one top-move entry (chess_analyzer.py:137-146):
when the entry has a `Move`, replace it by its SAN form and record the UCI
under the extra `UCI` key; otherwise keep the entry as is. -/
def topMoveToSan {B M : Type} (R : Rules B M) (fen : String)
    (mi : TopMoveEntry) : TopMoveEntry :=
  match mi.Move with
  | some uciMove =>
    { mi with Move := some (uci_to_san R fen uciMove), UCI := some uciMove }
  | none => mi

/-- `ChessAnalyzer.analyze_position` (chess_analyzer.py:112-159): validate
the FEN (raising `ValueError` otherwise), query evaluation, best move and
the top 3 moves, convert moves to SAN, and assemble the result dictionary.
Engine exceptions propagate to the caller. -/
def analyze_position {B M : Type} (E : Engine) (R : Rules B M)
    (fen : String) (depth : Nat) : Except PyError AnalysisDict :=
  if E.isFenValid fen = false then
    .error (.valueError ("Invalid FEN: " ++ fen))
  else
    match E.get_evaluation fen depth with
    | .error e => .error e
    | .ok evaluation =>
      match E.getBestMove fen depth with
      | .error e => .error e
      | .ok bestMoveUci =>
        match E.getTopMoves fen depth 3 with
        | .error e => .error e
        | .ok topMoves =>
          let bestMove := bestMoveUci.map (fun u => uci_to_san R fen u)
          let topMovesSan := topMoves.map (fun mi => topMoveToSan R fen mi)
          match bestMoveUci with
          | some u =>
            match E.willBeCapture fen u with
            | .error e => .error e
            | .ok cap =>
              .ok { fen := fen, evaluation := evaluation,
                    best_move := bestMove, best_move_uci := bestMoveUci,
                    top_moves := topMovesSan, is_check := cap }
          | none =>
            .ok { fen := fen, evaluation := evaluation,
                  best_move := bestMove, best_move_uci := bestMoveUci,
                  top_moves := topMovesSan, is_check := false }

/-- One ply of a principal variation: the `move_info` dictionary built at
chess_analyzer.py:301-309, with the optional `result` key added at
chess_analyzer.py:315-323 when a game-ending condition is detected. -/
structure PVStep where
  move_number : Nat
  move_san : String
  move_uci : String
  fen_before : String
  fen_after : String
  evaluation : Evaluation
  to_move : String
  result : Option String
deriving DecidableEq, Repr

/-- The dictionary returned by `ChessAnalyzer.get_principal_variation`
(chess_analyzer.py:339-345). -/
structure PVResult where
  starting_fen : String
  pv_moves : List String
  pv_analysis : List PVStep
  total_moves : Nat
  analysis_depth : Nat
deriving DecidableEq, Repr

/-- The outcome of one iteration of the walk loop in
`get_principal_variation` (chess_analyzer.py:276-333): `stop` means the
iteration appended nothing and the loop ends (missing best move, move
parsing failure, or a library call raised — caught by the surrounding
`try`); `last` means a step was appended and the loop ends (terminal tag,
mate evaluation, or centipawn magnitude above 2000); `cont` means a step
was appended and the walk continues from `newFen`. -/
inductive PVIterOut (B : Type) where
  | stop
  | last (san : String) (step : PVStep)
  | cont (san : String) (step : PVStep) (newFen : String) (b2 : B)

/-- One iteration of the walk loop of `get_principal_variation`
(chess_analyzer.py:276-333), at iteration index `moveNum` on position
`currentFen` with rules-library board `b`. -/
def pvIter {B M : Type} (E : Engine) (R : Rules B M) (depth moveNum : Nat)
    (currentFen : String) (b : B) : PVIterOut B :=
  match E.get_evaluation currentFen depth with
  | .error _ => .stop
  | .ok evaluation =>
    match E.getBestMove currentFen depth with
    | .error _ => .stop
    | .ok none => .stop
    | .ok (some bestUci) =>
      let bestSan := uci_to_san R currentFen bestUci
      match R.parseSan b bestSan with
      | .error _ => .stop
      | .ok mv =>
        let b2 := R.push b mv
        let newFen := R.fenOf b2
        match R.boardOfFen currentFen with
        | .error _ => .stop
        | .ok cb =>
          let tag : Option String :=
            if R.isCheckmate b2 then some "checkmate"
            else if R.isStalemate b2 then some "stalemate"
            else if R.isInsufficientMaterial b2 then some "insufficient_material"
            else none
          let step : PVStep :=
            { move_number := moveNum + 1, move_san := bestSan,
              move_uci := bestUci, fen_before := currentFen,
              fen_after := newFen, evaluation := evaluation,
              to_move := if R.turnWhite cb then "White" else "Black",
              result := tag }
          if tag.isSome then .last bestSan step
          else
            match evaluation with
            | .mate _ => .last bestSan step
            | .cp v =>
              if 2000 < v.natAbs then .last bestSan step
              else .cont bestSan step newFen b2

/-- The walk loop of `get_principal_variation` (chess_analyzer.py:276-333).
The Python loop appends to the accumulators `pv_moves` / `pv_analysis`;
here each call returns the lists of moves and steps produced from the
current iteration on, so the full accumulators are the returned lists. -/
def pvLoop {B M : Type} (E : Engine) (R : Rules B M) (depth : Nat) :
    Nat → Nat → String → B → List String × List PVStep
  | 0, _, _, _ => ([], [])
  | fuel + 1, moveNum, currentFen, b =>
    match pvIter E R depth moveNum currentFen b with
    | .stop => ([], [])
    | .last san step => ([san], [step])
    | .cont san step newFen b2 =>
      let rest := pvLoop E R depth fuel (moveNum + 1) newFen b2
      (san :: rest.1, step :: rest.2)

/-- `ChessAnalyzer.get_principal_variation` (chess_analyzer.py:253-345):
validate the FEN (raising `ValueError` otherwise), then walk up to
`maxMoves` plies; any exception inside the walk is caught by the
surrounding `try`/`except` and the accumulated partial variation is
returned. -/
def get_principal_variation {B M : Type} (E : Engine) (R : Rules B M)
    (fen : String) (depth maxMoves : Nat) : Except PyError PVResult :=
  if E.isFenValid fen = false then
    .error (.valueError ("Invalid FEN: " ++ fen))
  else
    let acc :=
      match R.boardOfFen fen with
      | .error _ => ([], [])
      | .ok b => pvLoop E R depth maxMoves 0 fen b
    .ok { starting_fen := fen, pv_moves := acc.1, pv_analysis := acc.2,
          total_moves := acc.1.length, analysis_depth := depth }

/-- The message of the `TypeError` raised when `analyze_position` is called
with a third caller argument: the method defined at chess_analyzer.py:112
declares only the parameters `(self, fen, depth)`. -/
def analyzePositionTypeErrorMsg : String :=
  "analyze_position() takes from 2 to 3 positional arguments but 4 were given"

/-- A call site of `ChessAnalyzer.analyze_position`, with the optional third
positional argument the MCP tool router passes (mcp_tool_router.py:131 and
the analogous call sites).  The method defined at chess_analyzer.py:112
accepts only `(self, fen, depth)`, so per the Python calling convention a
call that supplies a time-limit argument raises `TypeError` before the
method body runs; a two-argument call runs the method. -/
def callAnalyzePosition {B M : Type} (E : Engine) (R : Rules B M)
    (fen : String) (depth : Nat) (timeArg : Option ℚ) :
    Except PyError AnalysisDict :=
  match timeArg with
  | some _ => .error (.typeError analyzePositionTypeErrorMsg)
  | none => analyze_position E R fen depth

/-- The structured content of the reply of the `analyze_position` MCP tool
(mcp_tool_router.py:113-178): a missing-FEN error, a caught-exception error
text, or the formatted analysis (carrying the analysis it renders). -/
inductive AnalyzeToolReply where
  | missingFen
  | errorReply (e : PyError)
  | analysisReply (a : AnalysisDict)
deriving DecidableEq, Repr

/-- `MCPToolRouter._analyze_position` (mcp_tool_router.py:113-178): require
a FEN; default the time limit from the depth when none is supplied
(6.0 s when depth is at least 20, else 60.0 s); apply the hard 60-second
cap; call `analyze_position` with `(fen, depth, time_limit)`; any exception
is caught and turned into an error reply. -/
def routerAnalyzePosition {B M : Type} (E : Engine) (R : Rules B M)
    (fen : Option String) (depth : Nat) (timeLimit : Option ℚ) :
    AnalyzeToolReply :=
  match fen with
  | none => .missingFen
  | some f =>
    let tl : ℚ := timeLimit.getD (if 20 ≤ depth then 6 else 60)
    let tl : ℚ := min tl 60
    match callAnalyzePosition E R f depth (some tl) with
    | .error e => .errorReply e
    | .ok a => .analysisReply a

/-- The quality label of the in-ranked-list branch of
`_evaluate_move_quality` (mcp_tool_router.py:644-654), from the loss
relative to the best move. -/
def qualityOfLoss (loss : Int) : String :=
  if loss ≤ 10 then "Excellent"
  else if loss ≤ 50 then "Good"
  else if loss ≤ 100 then "Inaccuracy"
  else if loss ≤ 200 then "Mistake"
  else "Blunder"

/-- The assessment label of the not-in-ranked-list branch of
`_evaluate_move_quality` (mcp_tool_router.py:575-594), from the pawn loss
computed there (`None` when a mate score blocked the computation). -/
inductive RefutationAssessment where
  | practicallyEqual
  | minorInaccuracy
  | inaccuracy
  | mistake
  | blunder
  | complexMate
deriving DecidableEq, Repr

/-- Threshold mapping of mcp_tool_router.py:576-594. -/
def assessEvalLoss (l : Option ℚ) : RefutationAssessment :=
  match l with
  | none => .complexMate
  | some l =>
    if l ≤ 1/10 then .practicallyEqual
    else if l ≤ 3/10 then .minorInaccuracy
    else if l ≤ 4/5 then .inaccuracy
    else if l ≤ 2 then .mistake
    else .blunder

/-- The lookup loop of mcp_tool_router.py:477-481: find the first ranked
entry whose `Move` equals the played move and return its `Centipawn` value
(`some none` when the entry's value is None); `none` when no entry matches. -/
def findMoveCp : List TopMoveEntry → String → Option (Option Int)
  | [], _ => none
  | e :: rest, mv =>
    if e.Move = some mv then some e.Centipawn else findMoveCp rest mv

/-- The structured content of the reply of the `evaluate_move_quality` MCP
tool (mcp_tool_router.py:448-716). `classified` carries the quality label,
the evaluation change and the loss versus the best move of the
in-ranked-list branch; `notInTopMoves` carries the refutation assessment
and pawn loss of the not-in-ranked-list branch; `mateComplex` is the
"Position involves mate threats" reply; `invalidMove` is the invalid-move
error reply; `toolError` is the function-level caught-exception reply. -/
inductive MQOutcome where
  | missingArgs
  | toolError (e : PyError)
  | invalidMove (move : String)
  | notInTopMoves (assessment : RefutationAssessment) (evalLoss : Option ℚ)
  | classified (quality : String) (change : Int) (bestMoveLoss : Int)
  | mateComplex
deriving DecidableEq, Repr

/-- The classification part of `MCPToolRouter._evaluate_move_quality`
(mcp_tool_router.py:473-709), given the already-computed analysis of the
position before the move.

Not-in-ranked-list branch (mcp_tool_router.py:483-621): validate the move
(invalid-move error reply on failure), analyze the position after the move
at depth `min depth 20`, and assess the pawn loss
`-(eval_after - (-eval_before)) / 100` when both evaluations are centipawn
scores.  If that fresh analysis raises, the later read of the unassigned
`eval_loss` raises `NameError`, which the function-level handler catches.

In-ranked-list branch (mcp_tool_router.py:623-709): when the evaluation of
the position is a centipawn score and the played move's `Centipawn` value
is present, the loss is the rank-1 entry's `Centipawn` minus the played
move's (no side flip); a rank-1 `Centipawn` of None makes the subtraction
raise `TypeError`, caught by the function-level handler.  Otherwise the
mate-threats reply is returned. -/
def evaluateMoveQualityCore {B M : Type} (E : Engine) (R : Rules B M)
    (fen mv : String) (depth : Nat) (analysisBefore : AnalysisDict) :
    MQOutcome :=
  match findMoveCp analysisBefore.top_moves mv with
  | none =>
    match R.boardOfFen fen with
    | .error _ => .invalidMove mv
    | .ok b =>
      match R.parseSan b mv with
      | .error _ => .invalidMove mv
      | .ok mvObj =>
        let bAfter := R.push b mvObj
        let fenAfter := R.fenOf bAfter
        match analyze_position E R fenAfter (min depth 20) with
        | .error _ =>
          .toolError (.nameError "name eval_loss is not defined")
        | .ok analysisAfter =>
          let evalLoss : Option ℚ :=
            match analysisBefore.evaluation, analysisAfter.evaluation with
            | .cp bv, .cp av => some (-((av : ℚ) - (-(bv : ℚ))) / 100)
            | _, _ => none
          .notInTopMoves (assessEvalLoss evalLoss) evalLoss
  | some moveEvalCp =>
    match analysisBefore.evaluation, moveEvalCp with
    | .cp beforeCp, some moveCp =>
      let change := moveCp - beforeCp
      match analysisBefore.top_moves with
      | [] =>
        let loss := beforeCp - moveCp
        .classified (qualityOfLoss loss) change loss
      | first :: _ =>
        match first.Centipawn with
        | none =>
          .toolError (.typeError "unsupported operand for None and int")
        | some bestEval =>
          let loss := bestEval - moveCp
          .classified (qualityOfLoss loss) change loss
    | _, _ => .mateComplex

/-- `MCPToolRouter._evaluate_move_quality` (mcp_tool_router.py:448-716) end
to end: require FEN and move; default and cap the time limit (8.0 s when
depth is at least 20, else 60.0 s, capped at 60 s); fetch the position
analysis via `analyze_position(fen, depth, time_limit)` — a three-argument
call — then classify.  An exception from the fetch is caught by the
function-level handler. -/
def evaluateMoveQualityTool {B M : Type} (E : Engine) (R : Rules B M)
    (fen mv : Option String) (depth : Nat) (timeLimit : Option ℚ) :
    MQOutcome :=
  match fen, mv with
  | some f, some m =>
    let tl : ℚ := timeLimit.getD (if 20 ≤ depth then 8 else 60)
    let tl : ℚ := min tl 60
    match callAnalyzePosition E R f depth (some tl) with
    | .error e => .toolError e
    | .ok a => evaluateMoveQualityCore E R f m depth a
  | _, _ => .missingArgs

/-- The structured content of the reply of the `apply_moves` MCP tool
(mcp_tool_router.py:964-1066). `illegalMove` carries the rejected move, its
1-based position, the moves applied so far and the current FEN, exactly the
data of the error text at mcp_tool_router.py:1014-1019. -/
inductive ApplyMovesReply where
  | missingFen
  | missingMoves
  | invalidFen (e : PyError)
  | illegalMove (move : String) (position : Nat) (appliedSoFar : List String)
      (currentFen : String)
  | success (applied : List String) (finalFen : String)
deriving DecidableEq, Repr

/-- The move-application loop of `_apply_moves`
(mcp_tool_router.py:1000-1021): parse and push each SAN move in order; the
first move that fails to parse produces the illegal-move error reply and
nothing further is applied. -/
def applyMovesGo {B M : Type} (R : Rules B M) :
    B → List String → List String → ApplyMovesReply
  | b, [], applied => .success applied (R.fenOf b)
  | b, m :: rest, applied =>
    match R.parseSan b m with
    | .error _ => .illegalMove m (applied.length + 1) applied (R.fenOf b)
    | .ok mvObj => applyMovesGo R (R.push b mvObj) rest (applied ++ [m])

/-- `MCPToolRouter._apply_moves` (mcp_tool_router.py:964-1066): require a
starting FEN and a non-empty move list, build the board (invalid-FEN error
reply on failure), then apply the moves in order. -/
def applyMoves {B M : Type} (R : Rules B M) (startingFen : Option String)
    (moves : List String) : ApplyMovesReply :=
  match startingFen with
  | none => .missingFen
  | some f =>
    if moves = [] then .missingMoves
    else
      match R.boardOfFen f with
      | .error e => .invalidFen e
      | .ok b => applyMovesGo R b moves []

/-- The parameter dictionary passed to the `Stockfish` constructor by
`ChessAnalyzer.__init__` (chess_analyzer.py:26-31). -/
structure StockfishParams where
  threads : Nat
  hashMb : Nat
  moveOverhead : Nat
  minimumThinkingTime : Nat
deriving DecidableEq, Repr

/-- The `config` dictionary stored by `ChessAnalyzer.__init__`
(chess_analyzer.py:45-49). -/
structure AnalyzerConfig where
  threads : Nat
  hash_mb : Nat
  total_cores : Nat
deriving DecidableEq, Repr

/-- The mutable state of a `ChessAnalyzer`: which parameters its current
`Stockfish` handle was constructed with (`none` for a bare `Stockfish()`,
which uses the library defaults), and the stored `config` dictionary. -/
structure AnalyzerState where
  stockfishParams : Option StockfishParams
  config : AnalyzerConfig
deriving DecidableEq, Repr

/-- `ChessAnalyzer.__init__` (chess_analyzer.py:14-49): compute the optimal
thread count `floor((2/3) * num_cores)` (at least 1; rendered here with
exact rational arithmetic as `2 * numCores / 3` in natural division),
configure the Stockfish handle with threads, hash `min 1024 (64 * threads)`,
move overhead 10 and minimum thinking time 10, and store the `config`
record. -/
def mkChessAnalyzer (numCores : Nat) : AnalyzerState :=
  let optimalThreads := max 1 (2 * numCores / 3)
  let hash := min 1024 (64 * optimalThreads)
  { stockfishParams := some
      { threads := optimalThreads, hashMb := hash,
        moveOverhead := 10, minimumThinkingTime := 10 },
    config :=
      { threads := optimalThreads, hash_mb := hash,
        total_cores := numCores } }

/-- The loop of `ChessAnalyzer.analyze_game` (chess_analyzer.py:176-196)
acting on the analyzer state.  Each iteration first executes
`self.stockfish = Stockfish()` (chess_analyzer.py:179), replacing the
handle with a bare default-constructed one; the rest of the iteration
(`set_position`, `make_moves_from_current_position`, `get_fen_position`,
`analyze_position` — chess_analyzer.py:180-191) queries the new handle and
never reassigns it, so it is abstracted as the oracle `stepResult`, whose
`Except` failure is the caught per-iteration exception that breaks the
loop with partial results. -/
def analyzeGameGo (stepResult : Nat → Except PyError AnalysisDict) :
    Nat → Nat → AnalyzerState → List AnalysisDict →
    AnalyzerState × List AnalysisDict
  | 0, _, st, acc => (st, acc)
  | n + 1, i, st, acc =>
    let st2 : AnalyzerState := { st with stockfishParams := none }
    match stepResult i with
    | .error _ => (st2, acc)
    | .ok a => analyzeGameGo stepResult n (i + 1) st2 (acc ++ [a])

/-- `ChessAnalyzer.analyze_game` (chess_analyzer.py:161-198): one loop
iteration per input move. -/
def analyze_game (stepResult : Nat → Except PyError AnalysisDict)
    (st : AnalyzerState) (moves : List String) :
    AnalyzerState × List AnalysisDict :=
  analyzeGameGo stepResult moves.length 0 st []

/-- A trivial concrete rules oracle over string boards and string moves:
every FEN parses to itself, every move parses and is legal, SAN and UCI
conversions are the identity, and pushing a move appends it to the board
string.  Used to evaluate the embedded functions on concrete inputs. -/
def Rtriv : Rules String String :=
  { boardOfFen := fun f => .ok f,
    parseSan := fun _ m => .ok m,
    fromUci := fun u => .ok u,
    isLegalMove := fun _ _ => true,
    sanOf := fun _ m => m,
    uciOf := fun m => m,
    push := fun b m => b ++ "/" ++ m,
    fenOf := fun b => b,
    turnWhite := fun _ => true,
    isCheckmate := fun _ => false,
    isStalemate := fun _ => false,
    isInsufficientMaterial := fun _ => false }

/-- A concrete engine oracle reporting a raw mate-in-1 for the side to move
on a position with Black to move. -/
def EmateBlack : Engine :=
  { isFenValid := fun _ => true,
    rawEval := fun _ _ => .ok (.mate 1),
    whiteToMove := fun _ => false,
    getBestMove := fun _ _ => .ok (some "h4h7"),
    getTopMoves := fun _ _ _ => .ok [],
    willBeCapture := fun _ _ => .ok true }

/-- A concrete engine oracle whose evaluation is a mate score, so a
principal-variation walk records one step and stops. -/
def Ewalk : Engine :=
  { isFenValid := fun _ => true,
    rawEval := fun _ _ => .ok (.mate 2),
    whiteToMove := fun _ => true,
    getBestMove := fun _ _ => .ok (some "e2e4"),
    getTopMoves := fun _ _ _ => .ok [],
    willBeCapture := fun _ _ => .ok false }

/-- The principal variation `Ewalk`/`Rtriv` produce from `"startfen"` at
depth 12: one recorded step, stopped by the mate evaluation. -/
def walkResult : PVResult :=
  { starting_fen := "startfen",
    pv_moves := ["e2e4"],
    pv_analysis :=
      [{ move_number := 1, move_san := "e2e4", move_uci := "e2e4",
         fen_before := "startfen", fen_after := "startfen/e2e4",
         evaluation := .mate 2, to_move := "White", result := none }],
    total_moves := 1,
    analysis_depth := 12 }

/-- A concrete engine oracle that answers normally on `"startfen"` and
raises on every other position: the second step of a walk from
`"startfen"` hits an engine exception. -/
def Epartial : Engine :=
  { isFenValid := fun _ => true,
    rawEval := fun f _ =>
      if f = "startfen" then .ok (.cp 30)
      else .error (.engineError "engine crashed"),
    whiteToMove := fun _ => true,
    getBestMove := fun _ _ => .ok (some "e2e4"),
    getTopMoves := fun _ _ _ => .ok [],
    willBeCapture := fun _ _ => .ok false }

/-- A concrete engine oracle for a terminal position: no best move and an
empty top-move list. -/
def Eterm : Engine :=
  { isFenValid := fun _ => true,
    rawEval := fun _ _ => .ok (.cp 0),
    whiteToMove := fun _ => true,
    getBestMove := fun _ _ => .ok none,
    getTopMoves := fun _ _ _ => .ok [],
    willBeCapture := fun _ _ => .ok false }

/-- A trivial concrete engine oracle. -/
def Etriv : Engine :=
  { isFenValid := fun _ => true,
    rawEval := fun _ _ => .ok (.cp 0),
    whiteToMove := fun _ => true,
    getBestMove := fun _ _ => .ok none,
    getTopMoves := fun _ _ _ => .ok [],
    willBeCapture := fun _ _ => .ok false }

/-- A concrete rules oracle on which no move is legal and SAN parsing
always raises. -/
def Rillegal : Rules String String :=
  { boardOfFen := fun f => .ok f,
    parseSan := fun _ _ => .error (.valueError "illegal san"),
    fromUci := fun u => .ok u,
    isLegalMove := fun _ _ => false,
    sanOf := fun _ _ => "SAN",
    uciOf := fun m => m,
    push := fun b m => b ++ "/" ++ m,
    fenOf := fun b => b,
    turnWhite := fun _ => true,
    isCheckmate := fun _ => false,
    isStalemate := fun _ => false,
    isInsufficientMaterial := fun _ => false }

/-- A concrete position analysis with Black to move, in the White-positive
convention: the rank-1 candidate (best for Black) carries -500 centipawns,
the rank-2 candidate -200 centipawns; from Black's own perspective the
rank-2 move is 3 pawns worse than the best move. -/
def blackRankedAnalysis : AnalysisDict :=
  { fen := "7k/8/2q5/8/8/8/8/K7 b - - 0 1",
    evaluation := .cp (-100),
    best_move := some "Qc1",
    best_move_uci := some "c6c1",
    top_moves :=
      [{ Move := some "Qc1", Centipawn := some (-500), Mate := none,
         UCI := some "c6c1" },
       { Move := some "Qb6", Centipawn := some (-200), Mate := none,
         UCI := some "c6b6" }],
    is_check := false }

/-- A concrete position analysis whose evaluation is a mate score and whose
rank-1 candidate is a mating move (a mate entry has no `Centipawn` value). -/
def mateBestAnalysis : AnalysisDict :=
  { fen := "6k1/5ppp/8/8/7Q/8/8/6K1 w - - 0 1",
    evaluation := .mate 1,
    best_move := some "Qh7",
    best_move_uci := some "h4h7",
    top_moves :=
      [{ Move := some "Qh7", Centipawn := none, Mate := some 1,
         UCI := some "h4h7" }],
    is_check := false }

/-- A concrete position analysis with a centipawn evaluation whose rank-1
candidate carries a centipawn value. -/
def cpBestAnalysis : AnalysisDict :=
  { fen := "startfen",
    evaluation := .cp 25,
    best_move := some "Nf3",
    best_move_uci := some "g1f3",
    top_moves :=
      [{ Move := some "Nf3", Centipawn := some 30, Mate := none,
         UCI := some "g1f3" }],
    is_check := false }

theorem pvIter_last_move_san {B M : Type} (E : Engine) (R : Rules B M)
    (depth n : Nat) (f : String) (b : B) (s : String) (st : PVStep)
    (h : pvIter E R depth n f b = .last s st) : st.move_san = s := by
  simp only [pvIter] at h
  repeat' split at h
  all_goals first
    | exact PVIterOut.noConfusion h
    | (injection h with h1 h2; subst h1; subst h2; rfl)

theorem pvIter_cont_props {B M : Type} (E : Engine) (R : Rules B M)
    (depth n : Nat) (f : String) (b : B) (s : String) (st : PVStep)
    (f2 : String) (b2 : B)
    (h : pvIter E R depth n f b = .cont s st f2 b2) :
    st.move_san = s ∧ st.result = none := by
  simp only [pvIter] at h
  repeat' split at h
  all_goals first
    | exact PVIterOut.noConfusion h
    | (injection h with h1 h2 h3 h4; subst h1; subst h2; exact ⟨rfl, rfl⟩)
    | simp_all

theorem pvLoop_invariants {B M : Type} (E : Engine) (R : Rules B M)
    (depth : Nat) :
    ∀ (fuel moveNum : Nat) (fen : String) (b : B),
      (pvLoop E R depth fuel moveNum fen b).2.length ≤ fuel ∧
      (pvLoop E R depth fuel moveNum fen b).1 =
        (pvLoop E R depth fuel moveNum fen b).2.map PVStep.move_san ∧
      ∀ i s, (pvLoop E R depth fuel moveNum fen b).2[i]? = some s →
        s.result.isSome = true →
        i + 1 = (pvLoop E R depth fuel moveNum fen b).2.length := by
  intro fuel
  induction fuel with
  | zero => intro n f b; simp [pvLoop]
  | succ k ih =>
    intro n f b
    rcases hIt : pvIter E R depth n f b with _ | ⟨s, st⟩ | ⟨s, st, f2, b2⟩
    · simp [pvLoop, hIt]
    · have hsan := pvIter_last_move_san E R depth n f b s st hIt
      refine ⟨by simp [pvLoop, hIt], by simp [pvLoop, hIt, hsan], ?_⟩
      intro i s' hget _
      simp only [pvLoop, hIt] at hget ⊢
      rcases i with _ | j
      · simp
      · simp at hget
    · obtain ⟨hsan, hres⟩ := pvIter_cont_props E R depth n f b s st f2 b2 hIt
      obtain ⟨ih1, ih2, ih3⟩ := ih (n + 1) f2 b2
      refine ⟨?_, ?_, ?_⟩
      · simpa [pvLoop, hIt] using Nat.succ_le_succ ih1
      · simp [pvLoop, hIt, hsan, ih2]
      · intro i s' hget hsome
        simp only [pvLoop, hIt] at hget ⊢
        rcases i with _ | j
        · simp only [List.getElem?_cons_zero, Option.some.injEq] at hget
          subst hget
          rw [hres] at hsome
          simp at hsome
        · simp only [List.getElem?_cons_succ] at hget
          have := ih3 j s' hget hsome
          simp [List.length_cons]
          omega

theorem analyze_position_ok_evaluation {B M : Type} (E : Engine)
    (R : Rules B M) (fen : String) (depth : Nat) (raw : Evaluation)
    (r : AnalysisDict)
    (hraw : E.rawEval fen depth = .ok raw)
    (hr : analyze_position E R fen depth = .ok r) :
    r.evaluation = normalizeEvaluation raw (E.whiteToMove fen) := by
  cases hval : E.isFenValid fen
  · simp [analyze_position, hval] at hr
  · simp only [analyze_position, hval, Engine.get_evaluation, hraw,
      Bool.true_eq_false, if_false] at hr
    rcases hbm : E.getBestMove fen depth with e | bmo <;>
      simp only [hbm] at hr
    · exact Except.noConfusion hr
    · rcases htm : E.getTopMoves fen depth 3 with e | tms <;>
        simp only [htm] at hr
      · exact Except.noConfusion hr
      · rcases bmo with _ | u
        · simp only [Except.ok.injEq] at hr
          subst hr
          rfl
        · rcases hc : E.willBeCapture fen u with e | cap <;>
            simp only [hc] at hr
          · exact Except.noConfusion hr
          · simp only [Except.ok.injEq] at hr
            subst hr
            rfl

/-- C1: for every valid position query whose raw engine evaluation is
available, the evaluation placed in the analyzer's result is the raw
engine value passed exactly once through the White-positive normalization:
with Black to move a centipawn value is negated, and a raw mate-in-1 for
the side to move (Black) yields `mate (-1)`. -/
theorem evaluation_white_positive_normalized_once {B M : Type} (E : Engine)
    (R : Rules B M) (fen : String) (depth : Nat) (raw : Evaluation)
    (r : AnalysisDict)
    (hblack : E.whiteToMove fen = false)
    (hraw : E.rawEval fen depth = .ok raw)
    (hr : analyze_position E R fen depth = .ok r) :
    r.evaluation = normalizeEvaluation raw false ∧
    (∀ v, raw = Evaluation.cp v → r.evaluation = .cp (-v)) ∧
    (raw = Evaluation.mate 1 → r.evaluation = .mate (-1)) := by
  have h := analyze_position_ok_evaluation E R fen depth raw r hraw hr
  rw [hblack] at h
  refine ⟨h, ?_, ?_⟩
  · intro v hv
    subst hv
    simpa [normalizeEvaluation] using h
  · intro hm
    subst hm
    simpa [normalizeEvaluation] using h

theorem evaluation_white_positive_normalized_once_witness :
    EmateBlack.whiteToMove "bmfen" = false ∧
    ∃ r, analyze_position EmateBlack Rtriv "bmfen" 15 = .ok r ∧
      r.evaluation = .mate (-1) := by
  refine ⟨rfl, ?_⟩
  refine ⟨{ fen := "bmfen", evaluation := .mate (-1),
            best_move := some "h4h7", best_move_uci := some "h4h7",
            top_moves := [], is_check := true }, rfl, ?_⟩
  exact (evaluation_white_positive_normalized_once EmateBlack Rtriv "bmfen"
    15 (.mate 1) _ rfl rfl rfl).2.2 rfl

/-- C6: for every valid position on which the engine reports no best move
and an empty top-move list (a terminal position with no legal moves), the
analyzer returns an analysis with an absent best move and an empty
candidate list, and does not raise an error. -/
theorem analyze_terminal_position_empty_candidates {B M : Type} (E : Engine)
    (R : Rules B M) (fen : String) (depth : Nat) (raw : Evaluation)
    (hval : E.isFenValid fen = true)
    (hraw : E.rawEval fen depth = .ok raw)
    (hbm : E.getBestMove fen depth = .ok none)
    (htm : E.getTopMoves fen depth 3 = .ok []) :
    ∃ r, analyze_position E R fen depth = .ok r ∧
      r.best_move = none ∧ r.best_move_uci = none ∧ r.top_moves = [] ∧
      r.is_check = false := by
  refine ⟨{ fen := fen,
            evaluation := normalizeEvaluation raw (E.whiteToMove fen),
            best_move := none, best_move_uci := none,
            top_moves := [], is_check := false }, ?_, rfl, rfl, rfl, rfl⟩
  simp [analyze_position, hval, Engine.get_evaluation, hraw, hbm, htm]

theorem analyze_terminal_position_empty_candidates_witness :
    ∃ r, analyze_position Eterm Rtriv "termfen" 15 = .ok r ∧
      r.best_move = none ∧ r.best_move_uci = none ∧ r.top_moves = [] ∧
      r.is_check = false :=
  analyze_terminal_position_empty_candidates Eterm Rtriv "termfen" 15
    (.cp 0) rfl rfl rfl rfl

/-- C2: for every starting position, depth and ply cap, a successful
principal-variation walk returns at most `maxMoves` steps, and a step
carrying a terminal tag (checkmate, stalemate or insufficient material) is
always the last step of the returned variation. -/
theorem pv_walk_capped_and_stops_at_terminal {B M : Type} (E : Engine)
    (R : Rules B M) (fen : String) (depth maxMoves : Nat) (r : PVResult)
    (h : get_principal_variation E R fen depth maxMoves = .ok r) :
    r.pv_analysis.length ≤ maxMoves ∧
    ∀ k s, r.pv_analysis[k]? = some s → s.result.isSome = true →
      k + 1 = r.pv_analysis.length := by
  cases hval : E.isFenValid fen
  · simp [get_principal_variation, hval] at h
  · simp only [get_principal_variation, hval, Bool.true_eq_false,
      if_false, Except.ok.injEq] at h
    subst h
    rcases hb : R.boardOfFen fen with e | b <;> simp only [hb]
    · simp
    · obtain ⟨h1, _, h3⟩ := pvLoop_invariants E R depth maxMoves 0 fen b
      exact ⟨h1, h3⟩

theorem pv_walk_capped_and_stops_at_terminal_witness :
    get_principal_variation Ewalk Rtriv "startfen" 12 5 = .ok walkResult ∧
    walkResult.pv_analysis.length ≤ 5 :=
  ⟨rfl, (pv_walk_capped_and_stops_at_terminal Ewalk Rtriv "startfen" 12 5
    walkResult rfl).1⟩

/-- C9: every successfully returned principal-variation structure is
internally consistent — `total_moves` equals the length of `pv_moves`, and
`pv_moves` is exactly the list of SAN moves of the entries of
`pv_analysis` (so both lists have equal length and agree entrywise). -/
theorem pv_result_internally_consistent {B M : Type} (E : Engine)
    (R : Rules B M) (fen : String) (depth maxMoves : Nat) (r : PVResult)
    (h : get_principal_variation E R fen depth maxMoves = .ok r) :
    r.total_moves = r.pv_moves.length ∧
    r.pv_moves = r.pv_analysis.map PVStep.move_san := by
  cases hval : E.isFenValid fen
  · simp [get_principal_variation, hval] at h
  · simp only [get_principal_variation, hval, Bool.true_eq_false,
      if_false, Except.ok.injEq] at h
    subst h
    refine ⟨rfl, ?_⟩
    rcases hb : R.boardOfFen fen with e | b <;> simp only [hb]
    · simp
    · exact (pvLoop_invariants E R depth maxMoves 0 fen b).2.1

theorem pv_result_internally_consistent_witness :
    get_principal_variation Ewalk Rtriv "startfen" 12 5 = .ok walkResult ∧
    walkResult.pv_moves = walkResult.pv_analysis.map PVStep.move_san :=
  ⟨rfl, (pv_result_internally_consistent Ewalk Rtriv "startfen" 12 5
    walkResult rfl).2⟩

/-- C7: when the first walk step succeeds (no terminal tag, centipawn
magnitude within the early-stop threshold) and the engine raises on the
next position, the principal-variation walker returns the one accumulated
step as a successful result instead of propagating the exception. -/
theorem pv_walk_partial_on_midwalk_exception {B M : Type} (E : Engine)
    (R : Rules B M) (fen : String) (depth maxMoves : Nat) (b : B) (mv : M)
    (v : Int) (uci : String) (e : PyError)
    (hval : E.isFenValid fen = true)
    (hb : R.boardOfFen fen = .ok b)
    (he : E.get_evaluation fen depth = .ok (.cp v))
    (hv : v.natAbs ≤ 2000)
    (hbm : E.getBestMove fen depth = .ok (some uci))
    (hp : R.parseSan b (uci_to_san R fen uci) = .ok mv)
    (hcm : R.isCheckmate (R.push b mv) = false)
    (hsm : R.isStalemate (R.push b mv) = false)
    (him : R.isInsufficientMaterial (R.push b mv) = false)
    (herr : E.get_evaluation (R.fenOf (R.push b mv)) depth = .error e)
    (hmax : 2 ≤ maxMoves) :
    ∃ r, get_principal_variation E R fen depth maxMoves = .ok r ∧
      r.pv_moves = [uci_to_san R fen uci] ∧ r.pv_analysis.length = 1 := by
  obtain ⟨k, rfl⟩ : ∃ k, maxMoves = k + 2 := ⟨maxMoves - 2, by omega⟩
  have h2 : pvIter E R depth 1 (R.fenOf (R.push b mv)) (R.push b mv) =
      .stop := by
    simp [pvIter, herr]
  have h1 : pvIter E R depth 0 fen b = PVIterOut.cont (uci_to_san R fen uci)
      { move_number := 1, move_san := uci_to_san R fen uci, move_uci := uci,
        fen_before := fen, fen_after := R.fenOf (R.push b mv),
        evaluation := .cp v,
        to_move := if R.turnWhite b then "White" else "Black",
        result := none }
      (R.fenOf (R.push b mv)) (R.push b mv) := by
    simp [pvIter, he, hbm, hp, hb, hcm, hsm, him, Nat.not_lt.mpr hv]
  have hloop : pvLoop E R depth (k + 2) 0 fen b =
      ([uci_to_san R fen uci],
       [{ move_number := 1, move_san := uci_to_san R fen uci,
          move_uci := uci, fen_before := fen,
          fen_after := R.fenOf (R.push b mv), evaluation := .cp v,
          to_move := if R.turnWhite b then "White" else "Black",
          result := none }]) := by
    show pvLoop E R depth ((k + 1) + 1) 0 fen b = _
    simp only [pvLoop, h1]
    show (_, _) = _
    simp only [pvLoop, h2]
  exact ⟨{ starting_fen := fen, pv_moves := [uci_to_san R fen uci],
           pv_analysis :=
             [{ move_number := 1, move_san := uci_to_san R fen uci,
                move_uci := uci, fen_before := fen,
                fen_after := R.fenOf (R.push b mv), evaluation := .cp v,
                to_move := if R.turnWhite b then "White" else "Black",
                result := none }],
           total_moves := 1, analysis_depth := depth },
    by simp [get_principal_variation, hval, hb, hloop], rfl, rfl⟩

theorem pv_walk_partial_on_midwalk_exception_witness :
    ∃ r, get_principal_variation Epartial Rtriv "startfen" 10 5 = .ok r ∧
      r.pv_moves = ["e2e4"] ∧ r.pv_analysis.length = 1 :=
  pv_walk_partial_on_midwalk_exception Epartial Rtriv "startfen" 10 5
    "startfen" "e2e4" 30 "e2e4" (.engineError "engine crashed")
    rfl rfl rfl (by decide) rfl rfl rfl rfl rfl rfl (by decide)

/-- C3 (code bug): the `analyze_position` MCP tool always passes a time
limit as a third argument to `ChessAnalyzer.analyze_position`, which does
not accept one; the resulting `TypeError` is caught and an error reply is
returned instead of an analysis — for every engine, rules oracle, FEN,
depth and requested time budget. -/
theorem router_analyze_time_budget_type_error {B M : Type} (E : Engine)
    (R : Rules B M) (f : String) (depth : Nat) (tl : Option ℚ) :
    routerAnalyzePosition E R (some f) depth tl =
      .errorReply (.typeError analyzePositionTypeErrorMsg) := by
  simp [routerAnalyzePosition, callAnalyzePosition]

/-- C4 (code bug): with Black to move and White-positive candidate values,
the classifier's loss `rank-1 centipawn minus played centipawn` is applied
with no side flip, so a move 300 centipawns worse than best for the moving
side gets loss -300 (negative) and is classified Excellent. -/
theorem black_loss_not_flipped_misclassifies_blunder :
    evaluateMoveQualityCore Etriv Rtriv blackRankedAnalysis.fen "Qb6" 22
      blackRankedAnalysis = .classified "Excellent" (-100) (-300) ∧
    (-300 : Int) < 0 :=
  ⟨rfl, by decide⟩

/-- C5 (counterexample): a classified move equal to the analysis's rank-1
best move does not always yield loss 0 and quality Excellent — when the
position evaluation is a mate score (and the rank-1 entry carries no
centipawn value) the classifier returns the mate-threats reply instead. -/
theorem best_move_mate_eval_not_excellent :
    evaluateMoveQualityCore Etriv Rtriv mateBestAnalysis.fen "Qh7" 22
      mateBestAnalysis = .mateComplex ∧
    mateBestAnalysis.best_move = some "Qh7" ∧
    mateBestAnalysis.top_moves.map TopMoveEntry.Move = [some "Qh7"] :=
  ⟨rfl, rfl, rfl⟩

/-- C5 (amended): when the position evaluation is a centipawn score and
the rank-1 candidate carries a centipawn value, classifying a move equal
to the rank-1 best move yields loss 0 and quality Excellent. -/
theorem best_move_rank1_cp_excellent_zero_loss {B M : Type} (E : Engine)
    (R : Rules B M) (fen mv : String) (depth : Nat) (A : AnalysisDict)
    (v c : Int) (first : TopMoveEntry) (rest : List TopMoveEntry)
    (hev : A.evaluation = .cp v)
    (htm : A.top_moves = first :: rest)
    (hmv : first.Move = some mv)
    (hcp : first.Centipawn = some c)
    (hbest : A.best_move = some mv) :
    evaluateMoveQualityCore E R fen mv depth A =
      .classified "Excellent" (c - v) 0 := by
  simp [evaluateMoveQualityCore, findMoveCp, htm, hmv, hcp, hev,
    qualityOfLoss, sub_self]

theorem best_move_rank1_cp_excellent_zero_loss_witness :
    evaluateMoveQualityCore Etriv Rtriv "startfen" "Nf3" 22 cpBestAnalysis =
      .classified "Excellent" 5 0 := by
  have h := best_move_rank1_cp_excellent_zero_loss Etriv Rtriv "startfen"
    "Nf3" 22 cpBestAnalysis 25 30
    { Move := some "Nf3", Centipawn := some 30, Mate := none,
      UCI := some "g1f3" } [] rfl rfl rfl rfl rfl
  simpa using h

/-- C8 (counterexample): `uci_to_san`, given a move that is not legal in
the given position, surfaces no error and returns the unconverted input
move unchanged. -/
theorem uci_to_san_silent_fallback_on_illegal_move :
    Rillegal.isLegalMove "startfen" "e2e5" = false ∧
    uci_to_san Rillegal "startfen" "e2e5" = "e2e5" :=
  ⟨rfl, rfl⟩

/-- C8 (amended): `_apply_moves` surfaces an illegal move as an explicit
error naming the move, its position, the moves applied so far and the
current FEN, applying nothing further; the notation-conversion helpers
`uci_to_san` and `san_to_uci` instead return their input move unchanged
when the move is illegal or unparsable, without raising. -/
theorem illegal_move_error_vs_conversion_fallback {B M : Type}
    (R : Rules B M) (fen uci sanMove m0 : String) (b : B) (mv : M)
    (e1 e2 : PyError) (ms : List String)
    (hb : R.boardOfFen fen = .ok b)
    (hu : R.fromUci uci = .ok mv)
    (hil : R.isLegalMove b mv = false)
    (hps : R.parseSan b sanMove = .error e1)
    (hp0 : R.parseSan b m0 = .error e2) :
    uci_to_san R fen uci = uci ∧
    san_to_uci R fen sanMove = sanMove ∧
    applyMoves R (some fen) (m0 :: ms) =
      .illegalMove m0 1 [] (R.fenOf b) := by
  refine ⟨?_, ?_, ?_⟩
  · simp [uci_to_san, hb, hu, hil]
  · simp [san_to_uci, hb, hps]
  · simp [applyMoves, hb, applyMovesGo, hp0]

theorem illegal_move_error_vs_conversion_fallback_witness :
    uci_to_san Rillegal "illfen" "e2e5" = "e2e5" ∧
    san_to_uci Rillegal "illfen" "Nf3" = "Nf3" ∧
    applyMoves Rillegal (some "illfen") ["e4"] =
      .illegalMove "e4" 1 [] "illfen" :=
  illegal_move_error_vs_conversion_fallback Rillegal "illfen" "e2e5" "Nf3"
    "e4" "illfen" "e2e5" (.valueError "illegal san")
    (.valueError "illegal san") [] rfl rfl rfl rfl rfl

theorem analyzeGameGo_config (s : Nat → Except PyError AnalysisDict) :
    ∀ n i (st : AnalyzerState) (acc : List AnalysisDict),
      (analyzeGameGo s n i st acc).1.config = st.config := by
  intro n
  induction n with
  | zero => intro i st acc; rfl
  | succ k ih =>
    intro i st acc
    simp only [analyzeGameGo]
    rcases hs : s i with e | a <;> simp only [hs]
    exact ih (i + 1) _ _

theorem analyzeGameGo_params (s : Nat → Except PyError AnalysisDict) :
    ∀ n i (st : AnalyzerState) (acc : List AnalysisDict), n ≠ 0 →
      (analyzeGameGo s n i st acc).1.stockfishParams = none := by
  intro n
  induction n with
  | zero => intro i st acc h; exact absurd rfl h
  | succ k ih =>
    intro i st acc _
    simp only [analyzeGameGo]
    rcases hs : s i with e | a <;> simp only [hs]
    rcases Nat.eq_zero_or_pos k with hk | hk
    · subst hk; rfl
    · exact ih (i + 1) _ _ (by omega)

/-- C10: analyzing a non-empty game leaves the analyzer holding a bare
default-constructed engine handle (the construction-time thread, hash and
overhead parameters are discarded), while the stored `config` record is
unchanged and still reports the tuned settings. -/
theorem analyze_game_resets_engine_keeps_config
    (stepResult : Nat → Except PyError AnalysisDict) (numCores : Nat)
    (moves : List String) (hm : moves ≠ []) :
    (analyze_game stepResult (mkChessAnalyzer numCores)
        moves).1.stockfishParams = none ∧
    (analyze_game stepResult (mkChessAnalyzer numCores) moves).1.config =
      (mkChessAnalyzer numCores).config ∧
    (mkChessAnalyzer numCores).stockfishParams ≠ none := by
  refine ⟨?_, ?_, ?_⟩
  · exact analyzeGameGo_params stepResult moves.length 0 _ []
      (fun h => hm (List.length_eq_zero.mp h))
  · exact analyzeGameGo_config stepResult moves.length 0 _ []
  · simp [mkChessAnalyzer]

theorem analyze_game_resets_engine_keeps_config_witness :
    ((["e4"] : List String) ≠ []) ∧
    (analyze_game (fun _ => .error (.engineError "boom"))
        (mkChessAnalyzer 4) ["e4"]).1.stockfishParams = none :=
  ⟨by simp,
   (analyze_game_resets_engine_keeps_config
     (fun _ => .error (.engineError "boom")) 4 ["e4"] (by simp)).1⟩
